/-
Verification of the deprovisioning checklist generator
(src/deprovisiong_azure.py) against its specification.

The program is embedded shallowly: a pandas DataFrame becomes a `Df`
(a list of headers plus rows of optional cells, `none` standing for a
missing value / NaN); every string operation of the source is modelled
over `List Char` data so that all definitions are executable.

Modelling notes, stated once:
  * `pyStrip` models Python `str.strip()` (drop leading and trailing
    whitespace); `pyLower` models `str.lower()` via `Char.toLower`,
    faithful on ASCII input.
  * `cellStr` models pandas `.astype(str)` on a cell: a missing value
    (NaN) renders as the string "nan".
  * `pyStrListRepr` models Python `repr` of a list of strings for
    strings containing no quote, backslash or control characters, which
    is how the source interpolates a list into an f-string.
  * Python `sorted(set(...))` on strings is the strictly increasing
    enumeration of the distinct elements; `dedupSort` computes it by
    ordered insertion.
-/
import Mathlib

namespace Deprov

/-- Characters Python `strip` removes, restricted to ASCII whitespace. -/
def isWS (c : Char) : Bool := c = ' ' ∨ c = '\t' ∨ c = '\n' ∨ c = '\r'

/-- Strip on the character list: drop whitespace from the front, then from the back. -/
def stripChars (l : List Char) : List Char :=
  ((l.dropWhile isWS).reverse.dropWhile isWS).reverse

/-- Models Python `str.strip()`. -/
def pyStrip (s : String) : String := String.mk (stripChars s.data)

/-- Models Python `str.lower()` (faithful on ASCII). -/
def pyLower (s : String) : String := String.mk (s.data.map Char.toLower)

/-- Models pandas `.astype(str)` on one cell: NaN becomes "nan". -/
def cellStr (c : Option String) : String :=
  match c with
  | some s => s
  | none => "nan"

/-- `_normalize_colname`: `str(name).strip().lower()`. -/
def normalizeColname (s : String) : String := pyLower (pyStrip s)

/-- A tabular dataset: headers plus rows of optional cells (a cell is
`none` when the spreadsheet value is missing). -/
structure Df where
  headers : List String
  rows : List (List (Option String))

/-- The normalized-name index `{_normalize_colname(c): c for c in df.columns}`:
a dict comprehension keeps the LAST column winning on a key collision, so the
lookup returns the last header whose normalized form equals the key. -/
def lookupNorm (headers : List String) (key : String) : Option String :=
  (headers.filter (fun h => normalizeColname h == key)).getLast?

/-- `_resolve_any_column`: first candidate whose normalized form is a key of
the normalized-name index; returns the real header name. -/
def resolveAnyColumn (headers : List String) (candidates : List String) : Option String :=
  match candidates with
  | [] => none
  | c :: cs =>
    match lookupNorm headers (normalizeColname c) with
    | some h => some h
    | none => resolveAnyColumn headers cs

/-- `_require_columns`: the required names (already given normalized in the
source) that are not keys of the normalized-name index. -/
def requireColumns (headers : List String) (required : List String) : Bool × List String :=
  let missing := required.filter (fun c => (lookupNorm headers c).isNone)
  (missing.isEmpty, missing)

/-- `_require_any`: logical names for which no candidate column resolves. -/
def requireAny (headers : List String) (logical : List (String × List String)) :
    Bool × List String :=
  let missing := logical.foldl
    (fun acc p => if (resolveAnyColumn headers p.2).isNone then acc ++ [p.1] else acc) []
  (missing.isEmpty, missing)

/-- Index of the real column `real` among the headers (used by `_get`/`_get_any`
after resolution, which index the frame by the real column name). -/
def realIdx (headers : List String) (real : String) : Nat :=
  headers.findIdx (fun h => h == real)

/-- Column of cells for an already-resolved real header name. -/
def colCells (df : Df) (real : String) : List (Option String) :=
  df.rows.map (fun r => r.getD (realIdx df.headers real) none)

/-- `_get df colname`: resolve the normalized name to the real column, then
take that column (only called by the source after a `_require_columns` check). -/
def getCol (df : Df) (colname : String) : List (Option String) :=
  match lookupNorm df.headers colname with
  | some real => colCells df real
  | none => []

/-- Ordered duplicate-dropping insertion into a strictly increasing list. -/
def sortedInsert (x : String) : List String → List String
  | [] => [x]
  | y :: ys =>
    if x < y then x :: y :: ys
    else if x = y then y :: ys
    else y :: sortedInsert x ys

/-- `sorted(set(l))` for a list of strings: the strictly increasing
enumeration of the distinct elements. -/
def dedupSort (l : List String) : List String := l.foldr sortedInsert []

/-- `_clean_series_to_list` applied to a raw cell series:
`sorted(set(str(x).strip() for x in s.dropna() if str(x).strip() != ""))`. -/
def cleanSeriesToList (cells : List (Option String)) : List String :=
  dedupSort (((cells.filterMap id).map pyStrip).filter (fun x => x ≠ ""))

/-- `_clean_series_to_list` applied to a series that is already of string
dtype (post `.astype(str)`), where `dropna` drops nothing. -/
def cleanStrList (l : List String) : List String :=
  dedupSort ((l.map pyStrip).filter (fun x => x ≠ ""))

/-- One cell under `.astype(str).str.strip().str.lower()`. -/
def normCell (c : Option String) : String := pyLower (pyStrip (cellStr c))

/-- One cell under `.astype(str).str.strip()`. -/
def stripCell (c : Option String) : String := pyStrip (cellStr c)

/-- `', '.join(xs)` as used in the diagnostic messages. -/
def joinComma (xs : List String) : String := String.intercalate ", " xs

/-- Python `repr` of a list of strings (for strings free of quotes,
backslashes and control characters), as interpolated by the f-strings. -/
def pyStrListRepr (l : List String) : String :=
  "[" ++ String.intercalate ", " (l.map (fun s => "\x27" ++ s ++ "\x27")) ++ "]"

/-- Index of the column resolved for normalized name `colname`
(the source always calls this after a successful requirement check). -/
def colIdxOf (headers : List String) (colname : String) : Nat :=
  match lookupNorm headers colname with
  | some real => realIdx headers real
  | none => 0

/-- Index of the first column resolving among `candidates` (`_get_any`). -/
def colIdxOfAny (headers : List String) (candidates : List String) : Nat :=
  match resolveAnyColumn headers candidates with
  | some real => realIdx headers real
  | none => 0

/-- `estrai_da_utenti_azure`: display name and manager display name of the
first row whose principal-name cell matches `upn`; second component models
the diagnostics the source surfaces via `st.error` / `st.warning`. -/
def estrai_da_utenti_azure (upn : String) (df : Df) :
    (Option String × Option String) × List String :=
  let req := ["user principal name", "display name", "manager display name"]
  let rc := requireColumns df.headers req
  if !rc.1 then
    ((none, none),
     ["Nel file \x27Utenti_Azure\x27 mancano le colonne: " ++ joinComma rc.2])
  else
    let uIdx := colIdxOf df.headers "user principal name"
    let matching := df.rows.filter (fun r => normCell (r.getD uIdx none) == upn)
    match matching with
    | [] =>
      ((none, none),
       ["Nessuna corrispondenza trovata in \x27Utenti_Azure\x27 per l\x27UPN specificato."])
    | row :: _ =>
      let dnIdx := colIdxOf df.headers "display name"
      let mdnIdx := colIdxOf df.headers "manager display name"
      let dn := match row.getD dnIdx none with
        | some s => if pyStrip s = "" then none else some (pyStrip s)
        | none => none
      let mdn := match row.getD mdnIdx none with
        | some s => if pyStrip s = "" then none else some (pyStrip s)
        | none => none
      ((dn, mdn), [])

/-- `estrai_shared_mailboxes`: EmailAddress values of rows whose Member cell
matches `upn`, cleaned and sorted. -/
def estrai_shared_mailboxes (upn : String) (df : Df) : List String × List String :=
  let rc := requireColumns df.headers ["member", "emailaddress"]
  if !rc.1 then
    ([], ["Nel file \x27SharedMailboxesDetails\x27 mancano le colonne: " ++ joinComma rc.2])
  else
    let mIdx := colIdxOf df.headers "member"
    let eIdx := colIdxOf df.headers "emailaddress"
    let matching := df.rows.filter (fun r => normCell (r.getD mIdx none) == upn)
    (cleanSeriesToList (matching.map (fun r => r.getD eIdx none)), [])

/-- `estrai_group_members`: GroupName/NomeGruppo values of rows whose
member-principal-name cell (EN/IT header) matches `upn`. -/
def estrai_group_members (upn : String) (df : Df) : List String × List String :=
  let memberCands := ["memberuserprincipalname", "userprincipalnamemembro"]
  let groupCands := ["groupname", "nomegruppo"]
  let rc := requireAny df.headers
    [("member_upn", memberCands), ("group_name", groupCands)]
  if !rc.1 then
    ([], ["Nel file \x27EntraGroupMembers\x27 mancano i campi: " ++ joinComma rc.2])
  else
    let mIdx := colIdxOfAny df.headers memberCands
    let gIdx := colIdxOfAny df.headers groupCands
    let matching := df.rows.filter (fun r => normCell (r.getD mIdx none) == upn)
    (cleanSeriesToList (matching.map (fun r => r.getD gIdx none)), [])

/-- `estrai_user_mailbox_exists`: does any ObjectKey cell match `upn`? -/
def estrai_user_mailbox_exists (upn : String) (df : Df) : Bool × List String :=
  let rc := requireColumns df.headers ["objectkey"]
  if !rc.1 then
    (false, ["Nel file \x27UserMailboxes\x27 mancano le colonne: " ++ joinComma rc.2])
  else
    let oIdx := colIdxOf df.headers "objectkey"
    (df.rows.any (fun r => normCell (r.getD oIdx none) == upn), [])

/-- `estrai_group_owners_for_user`: GroupName values of rows whose OwnerEmail
cell matches `upn`. -/
def estrai_group_owners_for_user (upn : String) (df : Df) : List String × List String :=
  let rc := requireColumns df.headers ["owneremail", "groupname"]
  if !rc.1 then
    ([], ["Nel file \x27EntraGroupOwners\x27 mancano le colonne: " ++ joinComma rc.2])
  else
    let oIdx := colIdxOf df.headers "owneremail"
    let gIdx := colIdxOf df.headers "groupname"
    let matching := df.rows.filter (fun r => normCell (r.getD oIdx none) == upn)
    (cleanSeriesToList (matching.map (fun r => r.getD gIdx none)), [])

/-- Member-column preference of `build_owner_group_warnings`: a member-email
column if present, else a member-principal-name column (Python `or` on the
two `_resolve_any_column` results). -/
def resolveMemberCol (headers : List String) : Option String :=
  match resolveAnyColumn headers ["memberemail", "emailmembro"] with
  | some h => some h
  | none => resolveAnyColumn headers ["memberuserprincipalname", "userprincipalnamemembro"]

/-- `build_owner_group_warnings`: advisory lines for the groups the user owns. -/
def build_owner_group_warnings (owner_groups : List String) (df_groups : Option Df)
    (upn : String) : List String :=
  if owner_groups.isEmpty then [] else
  let warnings :=
    ["Per i seguenti Gruppi " ++ pyStrListRepr owner_groups ++ " utente indicato è Owner"]
  match df_groups with
  | none =>
    warnings ++
      ["Impossibile verificare il numero di membri: file \x27EntraGroupMembers\x27 non caricato."]
  | some df =>
    let group_candidates := ["groupname", "nomegruppo"]
    match resolveAnyColumn df.headers group_candidates with
    | none =>
      warnings ++
        ["Nel file \x27EntraGroupMembers\x27 manca la colonna del nome gruppo (GroupName/NomeGruppo)."]
    | some grpReal =>
      let gIdx := realIdx df.headers grpReal
      match resolveMemberCol df.headers with
      | none =>
        warnings ++
          ["Nel file \x27EntraGroupMembers\x27 non sono presenti colonne membri attese (MemberEmail/EmailMembro o MemberUserPrincipalName/UserPrincipalNameMembro)."]
      | some memRealName =>
        let mIdx := realIdx df.headers memRealName
        owner_groups.foldl (fun ws grp =>
          let matching := df.rows.filter (fun r => stripCell (r.getD gIdx none) == pyStrip grp)
          if matching.isEmpty then
            ws ++ ["Per il gruppo " ++ grp ++ " non sono presenti membri in \x27EntraGroupMembers\x27."]
          else
            let members_all := cleanStrList (matching.map (fun r => stripCell (r.getD mIdx none)))
            let members_all_lower := members_all.map pyLower
            let others := members_all.filter (fun m => pyLower m ≠ upn)
            if members_all_lower.length = 1 ∧ members_all_lower.getD 0 "" = upn then
              ws ++ ["Per il gruppo che è owner " ++ grp ++ " è unico utente registrato"]
            else if others.length > 0 then
              ws ++ ["Per il gruppo che è owner " ++ grp ++
                     " risultano registrati anche gli utenti " ++ pyStrListRepr others]
            else
              ws ++ ["Per il gruppo che è owner " ++ grp ++
                     " non sono emersi altri utenti oltre all\x27UPN indicato."]) warnings

/-- `build_shared_mailbox_last_user_warnings`: advisory when `upn` is the sole
member of one of its shared mailboxes. -/
def build_shared_mailbox_last_user_warnings (shared_mailboxes : List String)
    (df_sm : Option Df) (upn : String) : List String :=
  match df_sm with
  | none => []
  | some df =>
    if shared_mailboxes.isEmpty then [] else
    if !(requireColumns df.headers ["member", "emailaddress"]).1 then [] else
    let mIdx := colIdxOf df.headers "member"
    let eIdx := colIdxOf df.headers "emailaddress"
    shared_mailboxes.foldl (fun ws sm =>
      let matching := df.rows.filter (fun r => stripCell (r.getD eIdx none) == sm)
      if matching.isEmpty then ws
      else
        let members_for_sm := cleanStrList (matching.map (fun r => normCell (r.getD mIdx none)))
        if members_for_sm.length = 1 ∧ members_for_sm.getD 0 "" = upn then
          ws ++ ["Utente " ++ upn ++ " risulta essere ultimo per la Shared " ++ sm]
        else ws) []

/-- Python `x or default` for an optional string (`None` and `""` are falsy). -/
def pyOr (o : Option String) (d : String) : String :=
  match o with
  | some s => if s = "" then d else s
  | none => d

/-- `f"{idx}. {item}"`. -/
def numberLine (idx : Nat) (item : String) : String := toString idx ++ ". " ++ item

/-- The subject line: ticketed when the ticket is non-empty after trimming
(Python truthiness of `ticket and ticket.strip()`). -/
def makeTitle (ticket : Option String) (display_name : Option String) (upn : String) : String :=
  match ticket with
  | some t =>
    if t ≠ "" ∧ pyStrip t ≠ "" then
      "[Consip – SR][" ++ pyStrip t ++ "] Deprovisioning - " ++ pyOr display_name upn
    else
      "Consip – SR Deprovisioning - " ++ pyOr display_name upn
  | none => "Consip – SR Deprovisioning - " ++ pyOr display_name upn

/-- The PST extraction step (the `\n` of the source is a raw-string literal
backslash followed by `n`, not a line break). -/
def pstItem (upn : String) : String :=
  "Estrarre il PST (O365 eDiscovery) da archiviare in \\nasconsip2....\\backuppst\\03 - backup email cancellate\\"
    ++ upn ++ " (in z7 con psw condivisa)"

/-- `genera_template_deprovisioning`: the title followed by the checklist body. -/
def genera_template_deprovisioning (upn : String) (ticket : Option String)
    (display_name manager_display_name : Option String)
    (shared_mailboxes group_names : List String)
    (has_user_mailbox : Bool) : List String :=
  let title := makeTitle ticket display_name upn
  let step_items : List String :=
    ["Disabilitare l’account di Azure",
     "Impostazione Manager con: " ++ pyOr manager_display_name "—",
     "Impostare Hide dalla Rubrica"]
    ++ (if has_user_mailbox then [pstItem upn] else [])
    ++ ["Rimuovere le appartenenze dall’utenza Azure",
        "Rimuovere le applicazioni dall’utenza Azure",
        "Rimozione ruoli"]
  let numbered := List.zipWith numberLine (List.range' 1 step_items.length) step_items
  let step1 := step_items.length + 1
  let smLines := if shared_mailboxes.isEmpty then [] else
    numberLine step1 "Rimozione abilitazione da SM:"
      :: shared_mailboxes.map (fun sm => "   - " ++ sm)
  let step2 := if shared_mailboxes.isEmpty then step1 else step1 + 1
  let grpLines := if group_names.isEmpty then [] else
    numberLine step2 "Rimozione gruppi Azure:"
      :: group_names.map (fun g => "   - " ++ g)
  let step3 := if group_names.isEmpty then step2 else step2 + 1
  title :: "Ciao," :: ("per " ++ upn)
    :: numbered ++ smLines ++ grpLines ++ [numberLine step3 "Rimozione licenze"]

/-- `main` line 320: the raw UserPrincipalName input is `.strip().lower()`-ed
before any accessor or comparison runs. -/
def normalizeKey (s : String) : String := pyLower (pyStrip s)

/-- The accessor as invoked by `main` (lines 320 and 357): the identity key is
normalized before the shared-mailbox lookup. -/
def estrai_shared_mailboxes_pipeline (rawUpn : String) (df : Df) : List String × List String :=
  estrai_shared_mailboxes (normalizeKey rawUpn) df

/-- The accessor as invoked by `main` (lines 320 and 352): the identity key is
normalized before the directory lookup. -/
def estrai_da_utenti_azure_pipeline (rawUpn : String) (df : Df) :
    (Option String × Option String) × List String :=
  estrai_da_utenti_azure (normalizeKey rawUpn) df

/-- Python `"\n".join(lines)`. -/
def joinNL : List String → String
  | [] => ""
  | [s] => s
  | s :: rest => s ++ "\n" ++ joinNL rest

/-- `main` line 396: `steps[0] + "\n\n" + "\n".join(steps[1:])`. -/
def full_text (steps : List String) : String :=
  steps.headD "" ++ "\n\n" ++ joinNL steps.tail

/-- Numeric value of a list of decimal digit characters. -/
def foldDigits (l : List Char) : Nat :=
  l.foldl (fun n c => n * 10 + (c.toNat - 48)) 0

/-- Parse a checklist line of the shape `"<digits>. <item>"`; any other line
(greeting, bullet, title) yields `none`. Used to state that the generated
numbered items are recoverable, contiguous and in order. -/
def parseNumberedL (cs : List Char) : Option (Nat × String) :=
  let ds := cs.takeWhile Char.isDigit
  let rest := cs.dropWhile Char.isDigit
  if ds ≠ [] ∧ rest.take 2 = ['.', ' '] then
    some (foldDigits ds, String.mk (rest.drop 2))
  else none

/-- String-level wrapper of `parseNumberedL`. -/
def parseNumbered (s : String) : Option (Nat × String) := parseNumberedL s.data

/-- The numbered item texts in the fixed order required by the spec: three
fixed items, the conditional PST item, three fixed items, the conditional
shared-mailbox and group section headers, and the final licenses item. -/
def checklistItems (upn : String) (manager_display_name : Option String)
    (shared_mailboxes group_names : List String) (has_user_mailbox : Bool) : List String :=
  ["Disabilitare l’account di Azure",
   "Impostazione Manager con: " ++ pyOr manager_display_name "—",
   "Impostare Hide dalla Rubrica"]
  ++ (if has_user_mailbox then [pstItem upn] else [])
  ++ ["Rimuovere le appartenenze dall’utenza Azure",
      "Rimuovere le applicazioni dall’utenza Azure",
      "Rimozione ruoli"]
  ++ (if shared_mailboxes.isEmpty then [] else ["Rimozione abilitazione da SM:"])
  ++ (if group_names.isEmpty then [] else ["Rimozione gruppi Azure:"])
  ++ ["Rimozione licenze"]

/-- Split a character list on `'\n'` (the spec's re-splitting of the export). -/
def splitLinesL : List Char → List (List Char)
  | [] => [[]]
  | c :: cs =>
    if c = '\n' then [] :: splitLinesL cs
    else
      match splitLinesL cs with
      | r :: rs => (c :: r) :: rs
      | [] => [[c]]

/-- Split a text on line breaks into its lines. -/
def splitLines (s : String) : List String := (splitLinesL s.data).map String.mk

/-- The member list the owner-group loop inspects for one owned group:
rows whose group cell equals the trimmed group name, member cells cleaned. -/
def ownerGroupMembers (df : Df) (gIdx mIdx : Nat) (grp : String) : List String :=
  cleanStrList
    ((df.rows.filter (fun r => stripCell (r.getD gIdx none) == pyStrip grp)).map
      (fun r => stripCell (r.getD mIdx none)))

/-- The single advisory line the owner-group loop produces for one owned
group (the loop body of `build_owner_group_warnings`, one line per branch). -/
def ownerGroupAdvisory (df : Df) (gIdx mIdx : Nat) (upn grp : String) : String :=
  let matching := df.rows.filter (fun r => stripCell (r.getD gIdx none) == pyStrip grp)
  if matching.isEmpty then
    "Per il gruppo " ++ grp ++ " non sono presenti membri in \x27EntraGroupMembers\x27."
  else
    let members_all := cleanStrList (matching.map (fun r => stripCell (r.getD mIdx none)))
    let members_all_lower := members_all.map pyLower
    let others := members_all.filter (fun m => pyLower m ≠ upn)
    if members_all_lower.length = 1 ∧ members_all_lower.getD 0 "" = upn then
      "Per il gruppo che è owner " ++ grp ++ " è unico utente registrato"
    else if others.length > 0 then
      "Per il gruppo che è owner " ++ grp ++
        " risultano registrati anche gli utenti " ++ pyStrListRepr others
    else
      "Per il gruppo che è owner " ++ grp ++
        " non sono emersi altri utenti oltre all\x27UPN indicato."

/-- The deduplicated member list the shared-mailbox check inspects for one
mailbox address: rows whose (trimmed) email cell equals the address, member
cells normalized and cleaned. -/
def smMembersFor (df : Df) (sm : String) : List String :=
  cleanStrList
    ((df.rows.filter
        (fun r => stripCell (r.getD (colIdxOf df.headers "emailaddress") none) == sm)).map
      (fun r => normCell (r.getD (colIdxOf df.headers "member") none)))

/-- The sole-member advisory line for one shared mailbox. -/
def smWarnLine (upn sm : String) : String :=
  "Utente " ++ upn ++ " risulta essere ultimo per la Shared " ++ sm

/-! ### Basic facts about stripping -/

theorem dropWhile_getLast?_eq {p : Char → Bool} {l : List Char}
    (h : l.dropWhile p ≠ []) : (l.dropWhile p).getLast? = l.getLast? := by
  induction l with
  | nil => simp [List.dropWhile] at h
  | cons c cs ih =>
    by_cases hc : p c
    · rw [List.dropWhile_cons_of_pos hc] at h ⊢
      have hcs : cs ≠ [] := by
        intro he
        subst he
        simp [List.dropWhile] at h
      rw [ih h]
      cases cs with
      | nil => exact absurd rfl hcs
      | cons d ds => simp [List.getLast?_cons_cons]
    · rw [List.dropWhile_cons_of_neg hc]

theorem head?_not_ws_of_stripChars {l : List Char} {c : Char}
    (h : (stripChars l).head? = some c) : isWS c = false := by
  unfold stripChars at h
  set m := l.dropWhile isWS with hm
  have hne : m.reverse.dropWhile isWS ≠ [] := by
    intro he
    rw [he] at h
    simp at h
  rw [List.head?_reverse, dropWhile_getLast?_eq hne, List.getLast?_reverse] at h
  have := List.head?_dropWhile_not isWS l
  rw [← hm] at this
  rw [h] at this
  exact this

theorem stripChars_idem (l : List Char) : stripChars (stripChars l) = stripChars l := by
  have hfront : (stripChars l).dropWhile isWS = stripChars l := by
    cases hh : (stripChars l) with
    | nil => simp
    | cons c cs =>
      have : isWS c = false := head?_not_ws_of_stripChars (by rw [hh]; rfl)
      rw [List.dropWhile_cons_of_neg (by simp [this])]
  show (((stripChars l).dropWhile isWS).reverse.dropWhile isWS).reverse = stripChars l
  rw [hfront]
  show ((((l.dropWhile isWS).reverse.dropWhile isWS).reverse).reverse.dropWhile isWS).reverse
      = stripChars l
  rw [List.reverse_reverse, List.dropWhile_idempotent]
  rfl

theorem pyStrip_idem (s : String) : pyStrip (pyStrip s) = pyStrip s := by
  unfold pyStrip
  exact congrArg String.mk (stripChars_idem s.data)

/-! ### `dedupSort`: strictly sorted, duplicate-free, membership, permutation invariance -/

theorem mem_sortedInsert {x y : String} {l : List String} :
    y ∈ sortedInsert x l ↔ y = x ∨ y ∈ l := by
  induction l with
  | nil => simp [sortedInsert]
  | cons a t ih =>
    unfold sortedInsert
    by_cases h1 : x < a
    · simp [h1]
    · by_cases h2 : x = a
      · subst h2
        simp [h1]
      · simp only [if_neg h1, if_neg h2, List.mem_cons, ih]
        tauto

theorem sorted_sortedInsert {x : String} {l : List String}
    (h : l.Sorted (· < ·)) : (sortedInsert x l).Sorted (· < ·) := by
  induction l with
  | nil => simp [sortedInsert]
  | cons a t ih =>
    rw [List.sorted_cons] at h
    obtain ⟨ha, ht⟩ := h
    unfold sortedInsert
    by_cases h1 : x < a
    · simp only [if_pos h1]
      rw [List.sorted_cons]
      refine ⟨?_, by rw [List.sorted_cons]; exact ⟨ha, ht⟩⟩
      intro b hb
      rcases List.mem_cons.mp hb with hb | hb
      · exact hb ▸ h1
      · exact lt_trans h1 (ha b hb)
    · by_cases h2 : x = a
      · simp only [if_neg h1, if_pos h2]
        rw [List.sorted_cons]
        exact ⟨ha, ht⟩
      · have hax : a < x := by
          rcases lt_trichotomy x a with h | h | h
          · exact absurd h h1
          · exact absurd h h2
          · exact h
        simp only [if_neg h1, if_neg h2]
        rw [List.sorted_cons]
        refine ⟨?_, ih ht⟩
        intro b hb
        rcases mem_sortedInsert.mp hb with hb | hb
        · exact hb ▸ hax
        · exact ha b hb

theorem dedupSort_sorted (l : List String) : (dedupSort l).Sorted (· < ·) := by
  induction l with
  | nil => simp [dedupSort]
  | cons a t ih => exact sorted_sortedInsert ih

theorem mem_dedupSort {x : String} {l : List String} : x ∈ dedupSort l ↔ x ∈ l := by
  induction l with
  | nil => simp [dedupSort]
  | cons a t ih =>
    show x ∈ sortedInsert a (dedupSort t) ↔ _
    rw [mem_sortedInsert, ih]
    simp

theorem dedupSort_nodup (l : List String) : (dedupSort l).Nodup :=
  (dedupSort_sorted l).nodup

theorem eq_of_sorted_lt_of_mem_iff :
    ∀ {l₁ l₂ : List String}, l₁.Sorted (· < ·) → l₂.Sorted (· < ·) →
      (∀ x, x ∈ l₁ ↔ x ∈ l₂) → l₁ = l₂ := by
  intro l₁
  induction l₁ with
  | nil =>
    intro l₂ _ _ hm
    cases l₂ with
    | nil => rfl
    | cons b t₂ => exact absurd ((hm b).mpr (List.mem_cons_self b t₂)) (by simp)
  | cons a t₁ ih =>
    intro l₂ h₁ h₂ hm
    cases l₂ with
    | nil => exact absurd ((hm a).mp (List.mem_cons_self a t₁)) (by simp)
    | cons b t₂ =>
      rw [List.sorted_cons] at h₁ h₂
      have hab : a = b := by
        by_contra hne
        have ha2 : a ∈ b :: t₂ := (hm a).mp (List.mem_cons_self a t₁)
        have hb1 : b ∈ a :: t₁ := (hm b).mpr (List.mem_cons_self b t₂)
        have hba : b < a := by
          rcases List.mem_cons.mp ha2 with h | h
          · exact absurd h hne
          · exact h₂.1 a h
        have hab' : a < b := by
          rcases List.mem_cons.mp hb1 with h | h
          · exact absurd h.symm hne
          · exact h₁.1 b h
        exact absurd (lt_trans hab' hba) (lt_irrefl a)
      subst hab
      have htm : ∀ x, x ∈ t₁ ↔ x ∈ t₂ := by
        intro x
        constructor
        · intro hx
          rcases List.mem_cons.mp ((hm x).mp (List.mem_cons_of_mem a hx)) with h | h
          · exact absurd (h ▸ hx) (fun hc => lt_irrefl a (h₁.1 a (h ▸ hx)))
          · exact h
        · intro hx
          rcases List.mem_cons.mp ((hm x).mpr (List.mem_cons_of_mem a hx)) with h | h
          · exact absurd (h ▸ hx) (fun hc => lt_irrefl a (h₂.1 a (h ▸ hx)))
          · exact h
      rw [ih h₁.2 h₂.2 htm]

theorem dedupSort_perm_invariant {l₁ l₂ : List String} (h : l₁.Perm l₂) :
    dedupSort l₁ = dedupSort l₂ :=
  eq_of_sorted_lt_of_mem_iff (dedupSort_sorted l₁) (dedupSort_sorted l₂)
    (fun x => by rw [mem_dedupSort, mem_dedupSort]; exact ⟨fun hx => h.mem_iff.mp hx, fun hx => h.mem_iff.mpr hx⟩)

/-! ### Parsing the numbered lines back out of the checklist -/

theorem parse_head_not_digit {c : Char} {cs : List Char} (h : c.isDigit = false) :
    parseNumberedL (c :: cs) = none := by
  unfold parseNumberedL
  rw [List.takeWhile_cons_of_neg (by simp [h])]
  simp

theorem parseNumbered_append_head {p q : String} {c : Char} {cs : List Char}
    (hd : p.data = c :: cs) (h : c.isDigit = false) : parseNumbered (p ++ q) = none := by
  unfold parseNumbered
  rw [String.data_append, hd]
  show parseNumberedL (c :: (cs ++ q.data)) = none
  exact parse_head_not_digit h

theorem parse_numberLine (n : Nat) (item : String)
    (h1 : (toString n).data ≠ [])
    (h2 : ∀ c ∈ (toString n).data, c.isDigit = true)
    (h3 : foldDigits (toString n).data = n) :
    parseNumbered (numberLine n item) = some (n, item) := by
  unfold parseNumbered numberLine
  have hd : (toString n ++ ". " ++ item).data
      = (toString n).data ++ ('.' :: ' ' :: item.data) := by
    rw [String.data_append, String.data_append, List.append_assoc]
    rfl
  rw [hd]
  unfold parseNumberedL
  rw [List.takeWhile_append_of_pos h2, List.dropWhile_append_of_pos h2]
  simp [h1, h3]

theorem parse_numberLine_le (n : Nat) (item : String) (h1 : 1 ≤ n) (h2 : n ≤ 10) :
    parseNumbered (numberLine n item) = some (n, item) := by
  interval_cases n <;>
    exact parse_numberLine _ item (by decide) (by decide) (by decide)

theorem parse_bullet (s : String) : parseNumbered ("   - " ++ s) = none :=
  parseNumbered_append_head rfl (by decide)

theorem parse_per (s : String) : parseNumbered ("per " ++ s) = none :=
  parseNumbered_append_head rfl (by decide)

theorem parse_ciao : parseNumbered "Ciao," = none := by decide

theorem parse_makeTitle (ticket dn : Option String) (upn : String) :
    parseNumbered (makeTitle ticket dn upn) = none := by
  rcases ticket with _ | t
  · show parseNumbered ("Consip – SR Deprovisioning - " ++ pyOr dn upn) = none
    exact parseNumbered_append_head rfl (by decide)
  · show parseNumbered
        (if t ≠ "" ∧ pyStrip t ≠ "" then
          "[Consip – SR][" ++ pyStrip t ++ "] Deprovisioning - " ++ pyOr dn upn
        else "Consip – SR Deprovisioning - " ++ pyOr dn upn) = none
    by_cases hc : t ≠ "" ∧ pyStrip t ≠ ""
    · rw [if_pos hc, String.append_assoc, String.append_assoc]
      exact parseNumbered_append_head (p := "[Consip – SR][") rfl (by decide)
    · rw [if_neg hc]
      exact parseNumbered_append_head rfl (by decide)

theorem filterMap_bullets (l : List String) :
    (l.map (fun sm => "   - " ++ sm)).filterMap parseNumbered = [] := by
  induction l with
  | nil => rfl
  | cons a t ih => simp [List.filterMap_cons, parse_bullet, ih]

theorem filterMap_bullets_comp (l : List String) :
    l.filterMap (parseNumbered ∘ fun sm => "   - " ++ sm) = [] := by
  induction l with
  | nil => rfl
  | cons a t ih => simp [List.filterMap_cons, Function.comp, parse_bullet, ih]

/-! ### Claim theorems -/

/-- C5: for every combination of assembler inputs, the numbered items of the
checklist are numbered contiguously starting at 1 and their texts appear in
the fixed order: disable account, set manager, hide from directory, the PST
item exactly when the mailbox flag is true, remove memberships, remove
applications, remove roles, the conditional shared-mailbox and group section
headers, and the final licenses item (re-parsing the generated lines recovers
exactly the numbers `1..k` zipped with that fixed item sequence). -/
theorem c5_checklist_numbering_contiguous (upn : String) (ticket : Option String)
    (dn mdn : Option String) (sms grps : List String) (flag : Bool) :
    (genera_template_deprovisioning upn ticket dn mdn sms grps flag).filterMap parseNumbered
      = (List.range' 1 (checklistItems upn mdn sms grps flag).length).zip
          (checklistItems upn mdn sms grps flag) := by
  cases flag <;> cases sms <;> cases grps <;>
    simp [genera_template_deprovisioning, checklistItems, List.range',
      List.filterMap_cons, List.filterMap_append, parse_makeTitle, parse_ciao, parse_per,
      parse_bullet, filterMap_bullets, filterMap_bullets_comp, parse_numberLine_le,
      List.zip, List.zipWith]

/-- C6: for identity key "a.b.ext@x.it" with no ticket and no datasets
supplied (`main` passes the empty trimmed ticket, absent names, empty lists
and a false mailbox flag), the title is "Consip – SR Deprovisioning -
a.b.ext@x.it", the body has exactly the 7 fixed numbered items (no PST item,
no shared-mailbox or group section) ending with "Rimozione licenze", and the
two warning builders produce zero warnings. -/
theorem c6_no_files_example :
    (genera_template_deprovisioning "a.b.ext@x.it" (some "") none none [] [] false).headD ""
        = "Consip – SR Deprovisioning - a.b.ext@x.it"
    ∧ (genera_template_deprovisioning "a.b.ext@x.it" (some "") none none [] [] false).filterMap
          parseNumbered
        = [(1, "Disabilitare l’account di Azure"),
           (2, "Impostazione Manager con: —"),
           (3, "Impostare Hide dalla Rubrica"),
           (4, "Rimuovere le appartenenze dall’utenza Azure"),
           (5, "Rimuovere le applicazioni dall’utenza Azure"),
           (6, "Rimozione ruoli"),
           (7, "Rimozione licenze")]
    ∧ build_owner_group_warnings [] none "a.b.ext@x.it"
          ++ build_shared_mailbox_last_user_warnings [] none "a.b.ext@x.it" = [] := by
  refine ⟨rfl, ?_, rfl⟩
  decide


/-! ### Column resolution: characterization lemmas -/

theorem lookupNorm_none_iff {headers : List String} {key : String} :
    lookupNorm headers key = none ↔ ∀ h ∈ headers, normalizeColname h ≠ key := by
  unfold lookupNorm
  rw [List.getLast?_eq_none_iff, List.filter_eq_nil_iff]
  simp

theorem lookupNorm_some {headers : List String} {key h : String}
    (hh : lookupNorm headers key = some h) : h ∈ headers ∧ normalizeColname h = key := by
  unfold lookupNorm at hh
  have hm := List.mem_filter.mp (List.mem_of_getLast?_eq_some hh)
  exact ⟨hm.1, by simpa using hm.2⟩

theorem resolveAnyColumn_none_iff {headers cands : List String} :
    resolveAnyColumn headers cands = none ↔
      ∀ c ∈ cands, ∀ h ∈ headers, normalizeColname h ≠ normalizeColname c := by
  induction cands with
  | nil => simp [resolveAnyColumn]
  | cons c cs ih =>
    unfold resolveAnyColumn
    cases hl : lookupNorm headers (normalizeColname c) with
    | some hcol =>
      simp only []
      constructor
      · intro hfalse
        cases hfalse
      · intro hr
        obtain ⟨hmem, heq⟩ := lookupNorm_some hl
        exact absurd heq (hr c (List.mem_cons_self c cs) hcol hmem)
    | none =>
      simp only []
      rw [ih]
      constructor
      · intro hcs c' hc' h' hh'
        rcases List.mem_cons.mp hc' with h | h
        · exact h ▸ lookupNorm_none_iff.mp hl h' hh'
        · exact hcs c' h h' hh'
      · intro hall c' hc' h' hh'
        exact hall c' (List.mem_cons_of_mem c hc') h' hh'

theorem resolveAnyColumn_some {headers cands : List String} {col : String}
    (h : resolveAnyColumn headers cands = some col) :
    col ∈ headers ∧ ∃ i, i < cands.length ∧
      normalizeColname col = normalizeColname (cands.getD i "") ∧
      ∀ j, j < i → ∀ hh ∈ headers, normalizeColname hh ≠ normalizeColname (cands.getD j "") := by
  induction cands with
  | nil => cases h
  | cons c cs ih =>
    unfold resolveAnyColumn at h
    cases hl : lookupNorm headers (normalizeColname c) with
    | some hcol =>
      rw [hl] at h
      have hc : hcol = col := by injection h
      obtain ⟨hmem, heq⟩ := lookupNorm_some hl
      subst hc
      refine ⟨hmem, 0, by simp, by simpa using heq, ?_⟩
      intro j hj
      omega
    | none =>
      rw [hl] at h
      obtain ⟨hmem, i, hi, heq, hprev⟩ := ih h
      refine ⟨hmem, i + 1, by simpa using hi, by simpa using heq, ?_⟩
      intro j hj h' hh'
      cases j with
      | zero => exact lookupNorm_none_iff.mp hl h' hh'
      | succ j' =>
        rw [List.getD_cons_succ]
        exact hprev j' (by omega) h' hh'

theorem requireAny_missing_eq (headers : List String) (logical : List (String × List String)) :
    (requireAny headers logical).2 =
      (logical.filter (fun p => (resolveAnyColumn headers p.2).isNone)).map Prod.fst := by
  unfold requireAny
  suffices h : ∀ acc,
      logical.foldl
        (fun acc p => if (resolveAnyColumn headers p.2).isNone then acc ++ [p.1] else acc) acc
      = acc ++ (logical.filter (fun p => (resolveAnyColumn headers p.2).isNone)).map Prod.fst by
    simpa using h []
  induction logical with
  | nil => simp
  | cons p ps ih =>
    intro acc
    rw [List.foldl_cons]
    by_cases hp : (resolveAnyColumn headers p.2).isNone
    · rw [if_pos hp, ih]
      simp [List.filter_cons, hp]
    · rw [if_neg hp, ih]
      simp [List.filter_cons, hp]

theorem snd_unique_of_fst_nodup {l : List (String × List String)} {a : String}
    {b c : List String}
    (hnd : (l.map Prod.fst).Nodup) (hb : (a, b) ∈ l) (hc : (a, c) ∈ l) : b = c := by
  induction l with
  | nil => cases hb
  | cons p ps ih =>
    rw [List.map_cons, List.nodup_cons] at hnd
    rcases List.mem_cons.mp hb with hb1 | hb1 <;> rcases List.mem_cons.mp hc with hc1 | hc1
    · rw [← hb1] at hc1
      exact (congrArg Prod.snd hc1).symm
    · exfalso
      exact hnd.1 (hb1 ▸ (List.mem_map.mpr ⟨(a, c), hc1, rfl⟩ : a ∈ ps.map Prod.fst))
    · exfalso
      exact hnd.1 (hc1 ▸ (List.mem_map.mpr ⟨(a, b), hb1, rfl⟩ : a ∈ ps.map Prod.fst))
    · exact ih hnd.2 hb1 hc1


theorem cleanSeriesToList_sorted (cells : List (Option String)) :
    (cleanSeriesToList cells).Sorted (· < ·) := dedupSort_sorted _

theorem cleanSeriesToList_nodup (cells : List (Option String)) :
    (cleanSeriesToList cells).Nodup := dedupSort_nodup _

theorem cleanSeriesToList_perm {c₁ c₂ : List (Option String)} (h : c₁.Perm c₂) :
    cleanSeriesToList c₁ = cleanSeriesToList c₂ :=
  dedupSort_perm_invariant (((h.filterMap id).map pyStrip).filter (fun x => x ≠ ""))

/-- C3: every list-valued accessor output (shared mailboxes, group
memberships, owned groups) is strictly sorted (hence lexicographically
sorted and deduplicated) for every input dataset, and the shared-mailbox
accessor output is invariant under any permutation of the input rows
(so also under reordering of duplicate entries that differ only in case). -/
theorem c3_accessor_lists_sorted_dedup :
    (∀ upn df, ((estrai_shared_mailboxes upn df).1.Sorted (· < ·))
        ∧ (estrai_shared_mailboxes upn df).1.Nodup)
  ∧ (∀ upn df, ((estrai_group_members upn df).1.Sorted (· < ·))
        ∧ (estrai_group_members upn df).1.Nodup)
  ∧ (∀ upn df, ((estrai_group_owners_for_user upn df).1.Sorted (· < ·))
        ∧ (estrai_group_owners_for_user upn df).1.Nodup)
  ∧ (∀ upn (headers : List String) (rows₁ rows₂ : List (List (Option String))),
        rows₁.Perm rows₂ →
        estrai_shared_mailboxes upn ⟨headers, rows₁⟩
          = estrai_shared_mailboxes upn ⟨headers, rows₂⟩) := by
  refine ⟨?_, ?_, ?_, ?_⟩
  · intro upn df
    simp only [estrai_shared_mailboxes]
    cases hok : (requireColumns df.headers ["member", "emailaddress"]).1
    · rw [Bool.not_false, if_pos rfl]
      exact ⟨List.sorted_nil, List.nodup_nil⟩
    · rw [Bool.not_true, if_neg Bool.false_ne_true]
      exact ⟨cleanSeriesToList_sorted _, cleanSeriesToList_nodup _⟩
  · intro upn df
    simp only [estrai_group_members]
    cases hok : (requireAny df.headers
        [("member_upn", ["memberuserprincipalname", "userprincipalnamemembro"]),
         ("group_name", ["groupname", "nomegruppo"])]).1
    · rw [Bool.not_false, if_pos rfl]
      exact ⟨List.sorted_nil, List.nodup_nil⟩
    · rw [Bool.not_true, if_neg Bool.false_ne_true]
      exact ⟨cleanSeriesToList_sorted _, cleanSeriesToList_nodup _⟩
  · intro upn df
    simp only [estrai_group_owners_for_user]
    cases hok : (requireColumns df.headers ["owneremail", "groupname"]).1
    · rw [Bool.not_false, if_pos rfl]
      exact ⟨List.sorted_nil, List.nodup_nil⟩
    · rw [Bool.not_true, if_neg Bool.false_ne_true]
      exact ⟨cleanSeriesToList_sorted _, cleanSeriesToList_nodup _⟩
  · intro upn headers rows₁ rows₂ hperm
    simp only [estrai_shared_mailboxes]
    cases hok : (requireColumns headers ["member", "emailaddress"]).1
    · rw [Bool.not_false, if_pos rfl, if_pos rfl]
    · show (cleanSeriesToList _, ([] : List String)) = (cleanSeriesToList _, ([] : List String))
      rw [cleanSeriesToList_perm
        ((hperm.filter
            (fun r => normCell (r.getD (colIdxOf headers "member") none) == upn)).map
          (fun r => r.getD (colIdxOf headers "emailaddress") none))]


/-- C1: column resolution returns (the real header of) the first synonym
whose case-insensitive, whitespace-trimmed form is present among the
dataset headers; it returns the absent signal iff no synonym is present;
and `_require_any` reports a logical field as missing iff resolution of
its synonym list signals absence. -/
theorem c1_resolve_first_synonym (headers cands : List String)
    (logical : List (String × List String)) (hnd : (logical.map Prod.fst).Nodup) :
    (resolveAnyColumn headers cands = none ↔
       ∀ c ∈ cands, ∀ h ∈ headers, normalizeColname h ≠ normalizeColname c)
  ∧ (∀ col, resolveAnyColumn headers cands = some col →
       col ∈ headers ∧ ∃ i, i < cands.length ∧
         normalizeColname col = normalizeColname (cands.getD i "") ∧
         ∀ j, j < i → ∀ h ∈ headers, normalizeColname h ≠ normalizeColname (cands.getD j "")) 
  ∧ (∀ name cs, (name, cs) ∈ logical →
       (name ∈ (requireAny headers logical).2 ↔ resolveAnyColumn headers cs = none)) := by
  refine ⟨resolveAnyColumn_none_iff, fun col h => resolveAnyColumn_some h, ?_⟩
  intro name cs hmem
  rw [requireAny_missing_eq]
  simp only [List.mem_map, List.mem_filter]
  constructor
  · rintro ⟨⟨n', cs'⟩, ⟨hin, hnone⟩, hfst⟩
    simp only at hfst
    subst hfst
    have hcs : cs' = cs := snd_unique_of_fst_nodup hnd hin hmem
    subst hcs
    exact Option.isNone_iff_eq_none.mp hnone
  · intro hnone
    exact ⟨(name, cs), ⟨hmem, by simp [hnone]⟩, rfl⟩

theorem c1_resolve_first_synonym_witness :
    "member_upn" ∈ (requireAny ["NomeGruppo"]
        [("member_upn", ["memberuserprincipalname", "userprincipalnamemembro"]),
         ("group_name", ["groupname", "nomegruppo"])]).2
      ↔ resolveAnyColumn ["NomeGruppo"]
          ["memberuserprincipalname", "userprincipalnamemembro"] = none :=
  (c1_resolve_first_synonym ["NomeGruppo"] ["memberuserprincipalname", "userprincipalnamemembro"]
      [("member_upn", ["memberuserprincipalname", "userprincipalnamemembro"]),
       ("group_name", ["groupname", "nomegruppo"])] (by decide)).2.2
    "member_upn" ["memberuserprincipalname", "userprincipalnamemembro"] (by decide)

theorem c3_accessor_lists_sorted_dedup_witness :
    estrai_shared_mailboxes "a.b@x.it"
        ⟨["Member", "EmailAddress"],
         [[some "a.b@x.it", some "sm2@x.it"], [some "a.b@x.it", some "sm1@x.it"]]⟩
      = estrai_shared_mailboxes "a.b@x.it"
        ⟨["Member", "EmailAddress"],
         [[some "a.b@x.it", some "sm1@x.it"], [some "a.b@x.it", some "sm2@x.it"]]⟩ :=
  c3_accessor_lists_sorted_dedup.2.2.2 "a.b@x.it" ["Member", "EmailAddress"] _ _ (List.Perm.swap _ _ _)

/-- C4: the identity key is normalized (trimmed, lowercased) before any
comparison (as `main` does at the pipeline entry), the compared cell value
is normalized the same way, and hence row matching is case- and
whitespace-insensitive on both sides: two raw keys with the same normal
form give identical accessor results, the row predicate holds iff the two
normal forms agree, and two cell values with the same normal form are
indistinguishable. -/
theorem c4_identity_matching_normalized (raw raw' : String) (df : Df)
    (h : normalizeKey raw = normalizeKey raw') :
    estrai_shared_mailboxes_pipeline raw df = estrai_shared_mailboxes_pipeline raw' df
  ∧ estrai_da_utenti_azure_pipeline raw df = estrai_da_utenti_azure_pipeline raw' df
  ∧ (∀ cell : Option String,
      (normCell cell == normalizeKey raw) = true
        ↔ pyLower (pyStrip (cellStr cell)) = pyLower (pyStrip raw))
  ∧ (∀ c c' : String, pyLower (pyStrip c) = pyLower (pyStrip c') →
      (normCell (some c) == normalizeKey raw)
        = (normCell (some c') == normalizeKey raw)) := by
  refine ⟨?_, ?_, ?_, ?_⟩
  · unfold estrai_shared_mailboxes_pipeline
    rw [h]
  · unfold estrai_da_utenti_azure_pipeline
    rw [h]
  · intro cell
    rw [beq_iff_eq]
    exact Iff.rfl
  · intro c c' hcc
    show (pyLower (pyStrip c) == normalizeKey raw) = (pyLower (pyStrip c') == normalizeKey raw)
    rw [hcc]

theorem c4_identity_matching_normalized_witness :
    estrai_shared_mailboxes_pipeline " A.B@X.IT "
        ⟨["Member", "EmailAddress"], [[some "a.b@x.it", some "sm1@x.it"]]⟩
      = estrai_shared_mailboxes_pipeline "a.b@x.it"
        ⟨["Member", "EmailAddress"], [[some "a.b@x.it", some "sm1@x.it"]]⟩ :=
  (c4_identity_matching_normalized " A.B@X.IT " "a.b@x.it"
    ⟨["Member", "EmailAddress"], [[some "a.b@x.it", some "sm1@x.it"]]⟩ (by decide)).1

/-- C10: every element of every list produced by `_clean_series_to_list`
is a non-empty trimmed string: absent cells are dropped and values that
become empty after trimming are filtered out before dedup/sort. -/
theorem c10_clean_list_entries (cells : List (Option String)) (x : String)
    (hx : x ∈ cleanSeriesToList cells) : x ≠ "" ∧ pyStrip x = x := by
  unfold cleanSeriesToList at hx
  have hm := mem_dedupSort.mp hx
  have hf := List.mem_filter.mp hm
  refine ⟨by simpa using hf.2, ?_⟩
  obtain ⟨y, hy, hxy⟩ := List.mem_map.mp hf.1
  rw [← hxy]
  exact pyStrip_idem y

theorem c10_clean_list_entries_witness : "x" ≠ "" ∧ pyStrip "x" = "x" :=
  c10_clean_list_entries [some " x "] "x" (by decide)


/-- C9: when a supplied dataset lacks required logical fields, the
affected accessor reports the consolidated missing-field list in a single
diagnostic message and returns an empty/absent result (absent scalars,
false for the existence check, empty list); the accessors are total
functions, so no fatal failure is raised and the pipeline continues. -/
theorem c9_missing_fields_nonfatal (upn : String) (df : Df) :
    ((requireColumns df.headers
        ["user principal name", "display name", "manager display name"]).2 ≠ [] →
      estrai_da_utenti_azure upn df =
        ((none, none),
         ["Nel file \x27Utenti_Azure\x27 mancano le colonne: "
           ++ joinComma (requireColumns df.headers
               ["user principal name", "display name", "manager display name"]).2]))
  ∧ ((requireColumns df.headers ["objectkey"]).2 ≠ [] →
      estrai_user_mailbox_exists upn df =
        (false,
         ["Nel file \x27UserMailboxes\x27 mancano le colonne: "
           ++ joinComma (requireColumns df.headers ["objectkey"]).2]))
  ∧ ((requireColumns df.headers ["member", "emailaddress"]).2 ≠ [] →
      estrai_shared_mailboxes upn df =
        ([],
         ["Nel file \x27SharedMailboxesDetails\x27 mancano le colonne: "
           ++ joinComma (requireColumns df.headers ["member", "emailaddress"]).2])) := by
  refine ⟨?_, ?_, ?_⟩ <;> intro hne
  · have hok : (requireColumns df.headers
        ["user principal name", "display name", "manager display name"]).1 = false :=
      List.isEmpty_eq_false.mpr hne
    simp only [estrai_da_utenti_azure, hok, Bool.not_false, if_true]
  · have hok : (requireColumns df.headers ["objectkey"]).1 = false :=
      List.isEmpty_eq_false.mpr hne
    simp only [estrai_user_mailbox_exists, hok, Bool.not_false, if_true]
  · have hok : (requireColumns df.headers ["member", "emailaddress"]).1 = false :=
      List.isEmpty_eq_false.mpr hne
    simp only [estrai_shared_mailboxes, hok, Bool.not_false, if_true]

theorem c9_missing_fields_nonfatal_witness :
    estrai_user_mailbox_exists "a.b@x.it" ⟨["Foo"], [[some "a.b@x.it"]]⟩
      = (false, ["Nel file \x27UserMailboxes\x27 mancano le colonne: objectkey"]) :=
  (c9_missing_fields_nonfatal "a.b@x.it" ⟨["Foo"], [[some "a.b@x.it"]]⟩).2.1 (by decide)


theorem foldl_skip_guard {α β : Type} (A B : α → Prop) [DecidablePred A] [DecidablePred B]
    (f : α → β) :
    ∀ (l : List α) (acc : List β),
      l.foldl (fun ws x => if A x then ws else if B x then ws ++ [f x] else ws) acc
        = acc ++ l.filterMap (fun x => if ¬ A x ∧ B x then some (f x) else none) := by
  intro l
  induction l with
  | nil => simp
  | cons a t ih =>
    intro acc
    rw [List.foldl_cons, List.filterMap_cons]
    by_cases hA : A a
    · rw [if_pos hA, if_neg (by tauto), ih]
    · by_cases hB : B a
      · rw [if_neg hA, if_pos hB, if_pos ⟨hA, hB⟩, ih]
        simp
      · rw [if_neg hA, if_neg hB, if_neg (by tauto), ih]

theorem smWarnLine_inj {upn a b : String} (h : smWarnLine upn a = smWarnLine upn b) :
    a = b := by
  unfold smWarnLine at h
  rw [String.ext_iff] at h
  simp [String.data_append, List.append_assoc] at h
  exact String.ext h

theorem eq_single_of_length_getD {l : List String} {x : String}
    (h1 : l.length = 1) (h2 : l.getD 0 "" = x) : l = [x] := by
  cases l with
  | nil => cases h1
  | cons a t =>
    cases t with
    | nil => simp [List.getD] at h2; rw [h2]
    | cons b u => simp at h1

/-- C7: provided the shared-mailbox dataset has the member and email-address
fields (which holds whenever the membership list is non-empty in the
pipeline), for every address in the identity key’s membership list the
"last remaining user" advisory naming that address is emitted iff filtering
the dataset by that exact address yields the deduplicated member list
`[identity key]`; addresses with no matching rows are silently skipped
(their member list is empty, never `[identity key]`), and no error is
possible since the builder is a total function. -/
theorem c7_shared_mailbox_sole_member (sms : List String) (df : Df) (upn sm : String)
    (hreq : (requireColumns df.headers ["member", "emailaddress"]).1 = true)
    (hsm : sm ∈ sms) :
    smWarnLine upn sm ∈ build_shared_mailbox_last_user_warnings sms (some df) upn
      ↔ smMembersFor df sm = [upn] := by
  have hne : sms.isEmpty = false := List.isEmpty_eq_false.mpr (List.ne_nil_of_mem hsm)
  simp only [build_shared_mailbox_last_user_warnings, hne, hreq, Bool.not_true,
    Bool.false_eq_true, if_false]
  rw [foldl_skip_guard
    (fun s => (List.filter
        (fun r => stripCell (r.getD (colIdxOf df.headers "emailaddress") none) == s)
        df.rows).isEmpty = true)
    (fun s => (cleanStrList
          (List.map (fun r => normCell (r.getD (colIdxOf df.headers "member") none))
            (List.filter
              (fun r => stripCell (r.getD (colIdxOf df.headers "emailaddress") none) == s)
              df.rows))).length = 1
      ∧ (cleanStrList
          (List.map (fun r => normCell (r.getD (colIdxOf df.headers "member") none))
            (List.filter
              (fun r => stripCell (r.getD (colIdxOf df.headers "emailaddress") none) == s)
              df.rows))).getD 0 "" = upn)
    (fun s => "Utente " ++ upn ++ " risulta essere ultimo per la Shared " ++ s)]
  rw [List.nil_append, List.mem_filterMap]
  constructor
  · rintro ⟨a, ha, hpay⟩
    by_cases hc : ¬ ((List.filter
          (fun r => stripCell (r.getD (colIdxOf df.headers "emailaddress") none) == a)
          df.rows).isEmpty = true)
        ∧ ((cleanStrList
            (List.map (fun r => normCell (r.getD (colIdxOf df.headers "member") none))
              (List.filter
                (fun r => stripCell (r.getD (colIdxOf df.headers "emailaddress") none) == a)
                df.rows))).length = 1
          ∧ (cleanStrList
            (List.map (fun r => normCell (r.getD (colIdxOf df.headers "member") none))
              (List.filter
                (fun r => stripCell (r.getD (colIdxOf df.headers "emailaddress") none) == a)
                df.rows))).getD 0 "" = upn)
    · rw [if_pos hc] at hpay
      have hline : smWarnLine upn a = smWarnLine upn sm := by
        injection hpay
      have haeq : a = sm := smWarnLine_inj hline
      subst haeq
      exact eq_single_of_length_getD hc.2.1 hc.2.2
    · rw [if_neg hc] at hpay
      cases hpay
  · intro hm
    have hmsm : (cleanStrList
        (List.map (fun r => normCell (r.getD (colIdxOf df.headers "member") none))
          (List.filter
            (fun r => stripCell (r.getD (colIdxOf df.headers "emailaddress") none) == sm)
            df.rows))) = [upn] := hm
    refine ⟨sm, hsm, ?_⟩
    have hA : ¬ ((List.filter
        (fun r => stripCell (r.getD (colIdxOf df.headers "emailaddress") none) == sm)
        df.rows).isEmpty = true) := by
      intro hA
      rw [List.isEmpty_iff] at hA
      have hnil : smMembersFor df sm = [] := by
        unfold smMembersFor
        rw [hA]
        rfl
      rw [hm] at hnil
      cases hnil
    rw [if_pos ⟨hA, by rw [hmsm]; rfl, by rw [hmsm]; rfl⟩]
    rfl

theorem c7_shared_mailbox_sole_member_witness :
    smWarnLine "a.b@x.it" "sm1@x.it" ∈
        build_shared_mailbox_last_user_warnings ["sm1@x.it"]
          (some ⟨["Member", "EmailAddress"], [[some "a.b@x.it", some "sm1@x.it"]]⟩) "a.b@x.it"
      ↔ smMembersFor ⟨["Member", "EmailAddress"], [[some "a.b@x.it", some "sm1@x.it"]]⟩
          "sm1@x.it" = ["a.b@x.it"] :=
  c7_shared_mailbox_sole_member ["sm1@x.it"]
    ⟨["Member", "EmailAddress"], [[some "a.b@x.it", some "sm1@x.it"]]⟩
    "a.b@x.it" "sm1@x.it" (by decide) (by decide)


theorem foldl_body_eq {α β : Type} {body : List β → α → List β} {g : α → β}
    (h : ∀ ws x, body ws x = ws ++ [g x]) :
    ∀ (l : List α) (acc : List β), l.foldl body acc = acc ++ l.map g := by
  intro l
  induction l with
  | nil => simp
  | cons a t ih =>
    intro acc
    rw [List.foldl_cons, h, ih, List.map_cons]
    simp

/-- C2: for every non-empty owned-group list, when the membership dataset is
supplied and its group and member columns resolve, the warning builder
returns the summary line listing all owned groups first, followed by exactly
one advisory line per owned group in order (so its length is one more than
the number of owned groups); and when the membership table shows a group has
exactly one member equal to the identity key, that group's advisory is the
"sole registered user" advisory. -/
theorem c2_owner_group_warnings_shape (og : List String) (df : Df) (upn : String) (gReal mReal : String)
    (hne : og ≠ [])
    (hg : resolveAnyColumn df.headers ["groupname", "nomegruppo"] = some gReal)
    (hm : resolveMemberCol df.headers = some mReal) :
    build_owner_group_warnings og (some df) upn
      = ("Per i seguenti Gruppi " ++ pyStrListRepr og ++ " utente indicato è Owner")
          :: og.map (ownerGroupAdvisory df (realIdx df.headers gReal)
              (realIdx df.headers mReal) upn)
  ∧ (build_owner_group_warnings og (some df) upn).length = og.length + 1
  ∧ ∀ grp, (ownerGroupMembers df (realIdx df.headers gReal)
        (realIdx df.headers mReal) grp).map pyLower = [upn] →
      ownerGroupAdvisory df (realIdx df.headers gReal) (realIdx df.headers mReal) upn grp
        = "Per il gruppo che è owner " ++ grp ++ " è unico utente registrato" := by
  have hie : og.isEmpty = false := List.isEmpty_eq_false.mpr hne
  have hmain : build_owner_group_warnings og (some df) upn
      = ("Per i seguenti Gruppi " ++ pyStrListRepr og ++ " utente indicato è Owner")
          :: og.map (ownerGroupAdvisory df (realIdx df.headers gReal)
              (realIdx df.headers mReal) upn) := by
    simp only [build_owner_group_warnings, hie, Bool.false_eq_true, if_false, hg, hm]
    refine Eq.trans (foldl_body_eq
      (g := ownerGroupAdvisory df (realIdx df.headers gReal) (realIdx df.headers mReal) upn)
      ?_ og _) rfl
    intro ws grp
    simp only [ownerGroupAdvisory]
    split_ifs <;> rfl
  refine ⟨hmain, by rw [hmain]; simp, ?_⟩
  intro grp hgrp
  unfold ownerGroupMembers at hgrp
  have hmne : (df.rows.filter
      (fun r => stripCell (r.getD (realIdx df.headers gReal) none) == pyStrip grp)).isEmpty
        = false := by
    rw [List.isEmpty_eq_false]
    intro hnil
    rw [hnil] at hgrp
    simp [cleanStrList, dedupSort] at hgrp
  simp only [ownerGroupAdvisory]
  rw [hmne]
  rw [if_neg Bool.false_ne_true]
  rw [hgrp]
  rw [if_pos ⟨rfl, rfl⟩]

theorem c2_owner_group_warnings_shape_witness :
    build_owner_group_warnings ["G1"]
        (some ⟨["GroupName", "MemberEmail"], [[some "G1", some "a.b@x.it"]]⟩) "a.b@x.it"
      = ("Per i seguenti Gruppi " ++ pyStrListRepr ["G1"] ++ " utente indicato è Owner")
          :: List.map
            (ownerGroupAdvisory
              ⟨["GroupName", "MemberEmail"], [[some "G1", some "a.b@x.it"]]⟩
              (realIdx ["GroupName", "MemberEmail"] "GroupName")
              (realIdx ["GroupName", "MemberEmail"] "MemberEmail") "a.b@x.it")
            ["G1"] :=
  (c2_owner_group_warnings_shape ["G1"]
    ⟨["GroupName", "MemberEmail"], [[some "G1", some "a.b@x.it"]]⟩ "a.b@x.it"
    "GroupName" "MemberEmail" (by decide) (by decide) (by decide)).1


theorem splitLinesL_cons_nl (cs : List Char) :
    splitLinesL ('\n' :: cs) = [] :: splitLinesL cs := by
  simp [splitLinesL]

theorem splitLinesL_no_nl {l : List Char} (h : '\n' ∉ l) : splitLinesL l = [l] := by
  induction l with
  | nil => rfl
  | cons c cs ih =>
    have hc : ¬ c = '\n' := by
      intro he
      exact h (he ▸ List.mem_cons_self c cs)
    have hcs : '\n' ∉ cs := fun hm => h (List.mem_cons_of_mem c hm)
    simp [splitLinesL, hc, ih hcs]

theorem splitLinesL_append {l rest : List Char} (h : '\n' ∉ l) :
    splitLinesL (l ++ '\n' :: rest) = l :: splitLinesL rest := by
  induction l with
  | nil => simp [splitLinesL_cons_nl]
  | cons c cs ih =>
    have hc : ¬ c = '\n' := by
      intro he
      exact h (he ▸ List.mem_cons_self c cs)
    have hcs : '\n' ∉ cs := fun hm => h (List.mem_cons_of_mem c hm)
    rw [List.cons_append]
    simp only [splitLinesL, hc, if_neg, ih hcs]
    simp [hc]

theorem joinNL_split {lines : List String} (h : ∀ s ∈ lines, '\n' ∉ s.data)
    (hne : lines ≠ []) :
    splitLinesL (joinNL lines).data = lines.map String.data := by
  induction lines with
  | nil => exact absurd rfl hne
  | cons s rest ih =>
    cases rest with
    | nil =>
      show splitLinesL s.data = [s.data]
      exact splitLinesL_no_nl (h s (List.mem_cons_self s []))
    | cons b t =>
      have hdata : (joinNL (s :: b :: t)).data
          = s.data ++ '\n' :: (joinNL (b :: t)).data := by
        show (s ++ "\n" ++ joinNL (b :: t)).data = _
        rw [String.data_append, String.data_append, List.append_assoc]
        rfl
      rw [hdata, splitLinesL_append (h s (List.mem_cons_self s (b :: t))),
        ih (fun x hx => h x (List.mem_cons_of_mem s hx)) (by simp)]
      rfl

theorem map_mk_data (l : List String) : (l.map String.data).map String.mk = l := by
  induction l with
  | nil => rfl
  | cons a t ih => simp [ih]

theorem roundtrip_cons (a : String) (rest : List String)
    (ha : '\n' ∉ a.data) (hrest : ∀ s ∈ rest, '\n' ∉ s.data) (hne : rest ≠ []) :
    splitLines (full_text (a :: rest)) = a :: "" :: rest := by
  unfold full_text splitLines
  have hdata : ((a :: rest).headD "" ++ "\n\n" ++ joinNL (a :: rest).tail).data
      = a.data ++ '\n' :: '\n' :: (joinNL rest).data := by
    show (a ++ "\n\n" ++ joinNL rest).data = _
    rw [String.data_append, String.data_append, List.append_assoc]
    rfl
  rw [hdata, splitLinesL_append ha, splitLinesL_cons_nl, joinNL_split hrest hne]
  show a :: "" :: (rest.map String.data).map String.mk = a :: "" :: rest
  rw [map_mk_data]

theorem genera_ne_nil (upn : String) (ticket : Option String) (dn mdn : Option String)
    (sms grps : List String) (flag : Bool) :
    genera_template_deprovisioning upn ticket dn mdn sms grps flag ≠ [] := by
  simp [genera_template_deprovisioning]

theorem genera_tail_ne_nil (upn : String) (ticket : Option String) (dn mdn : Option String)
    (sms grps : List String) (flag : Bool) :
    (genera_template_deprovisioning upn ticket dn mdn sms grps flag).tail ≠ [] := by
  simp [genera_template_deprovisioning]

/-- C8 (amended): for every generated checklist line sequence in which no
line contains an embedded line-break character, exporting it as title, blank
line, then the remaining lines joined by line breaks and re-splitting that
text on line breaks reproduces exactly the title line, the blank line and
the remaining body lines. (The unconditional claim fails: a cell value
carrying an embedded line break ends up inside a single generated line, and
re-splitting cuts it; see the counterexample.) -/
theorem c8_export_roundtrip (upn : String) (ticket : Option String) (dn mdn : Option String)
    (sms grps : List String) (flag : Bool)
    (h : ∀ l ∈ genera_template_deprovisioning upn ticket dn mdn sms grps flag,
      '\n' ∉ l.data) :
    splitLines (full_text (genera_template_deprovisioning upn ticket dn mdn sms grps flag))
      = (genera_template_deprovisioning upn ticket dn mdn sms grps flag).headD ""
          :: "" :: (genera_template_deprovisioning upn ticket dn mdn sms grps flag).tail := by
  cases hg : genera_template_deprovisioning upn ticket dn mdn sms grps flag with
  | nil => exact absurd hg (genera_ne_nil upn ticket dn mdn sms grps flag)
  | cons a rest =>
    rw [hg] at h
    have hrt : rest ≠ [] := by
      have := genera_tail_ne_nil upn ticket dn mdn sms grps flag
      rw [hg] at this
      simpa using this
    exact roundtrip_cons a rest (h a (List.mem_cons_self a rest))
      (fun s hs => h s (List.mem_cons_of_mem a hs)) hrt

/-- C8 counterexample: with a shared-mailbox value containing an embedded
line break, re-splitting the export does not reproduce the original line
sequence. -/
theorem c8_export_roundtrip_counterexample :
    splitLines (full_text (genera_template_deprovisioning "u" none none none
        [String.mk ['a', '\n', 'b']] [] false))
      ≠ (genera_template_deprovisioning "u" none none none
          [String.mk ['a', '\n', 'b']] [] false).headD ""
          :: "" :: (genera_template_deprovisioning "u" none none none
              [String.mk ['a', '\n', 'b']] [] false).tail := by
  decide

theorem c8_export_roundtrip_witness :
    splitLines (full_text (genera_template_deprovisioning "u" none none none [] [] false))
      = (genera_template_deprovisioning "u" none none none [] [] false).headD ""
          :: "" :: (genera_template_deprovisioning "u" none none none [] [] false).tail :=
  c8_export_roundtrip "u" none none none [] [] false (by decide)

end Deprov
